import Mathlib

/-!
# Verification of the compliance-ai-service risk core

Shallow embedding of the deterministic risk scorers
(`app/pure_risk_scorer.py`, `app/bulk_risk_engine.py`), the text
normalizers (`app/sanctions_loader.py::_normalize`,
`app/pure_risk_scorer.py::PureRiskScorer._normalize`), the sanctions
candidate matcher (`app/sanction_matching.py`) and the advisory
reconciliation protocol (`app/llm_sanctions_risk.py`).

Modelling conventions:
* Python strings are Lean `String`s (lists of unicode scalar values).
  `str.upper()` / `str.lower()` are modelled by the character-wise
  ASCII case maps `Char.toUpper` / `Char.toLower`, which agree with
  CPython on the basic-latin range used by the reference tables.
* Python whitespace handling (`str.strip()` / `str.split()` without
  arguments) is modelled over the six ASCII whitespace characters.
* A dict-shaped record field that may be absent is an `Option String`
  (`none` = key absent); `row.get(k, "")` is `Option.getD "" `.
* Python `int` scores are Lean `Int`s.
* The external LLM call and its JSON parsing are nondeterministic
  input; they are modelled as an explicit outcome parameter.
-/

namespace ComplianceAI

/-! ## Text normalization (character level) -/

/-- ASCII whitespace, as recognised by Python's argument-less
`str.strip()` / `str.split()`: space, tab, newline, carriage return,
vertical tab, form feed. -/
def pyWs (c : Char) : Bool :=
  c = ' ' || c = '\t' || c = '\n' || c = '\r' || c = '\x0b' || c = '\x0c'

/-- Python `str.upper()` on a character list (ASCII case map). -/
def upperChars (l : List Char) : List Char := l.map Char.toUpper

/-- Python `str.lower()` on a character list (ASCII case map). -/
def lowerChars (l : List Char) : List Char := l.map Char.toLower

/-- Python `str.strip()` on a character list: drop leading and trailing
whitespace. -/
def trimChars (l : List Char) : List Char :=
  ((l.dropWhile pyWs).reverse.dropWhile pyWs).reverse

/-- Accumulator-based splitting of a character list into maximal
whitespace-free words, Python's argument-less `str.split()`.
`acc` holds the (reversed) word currently being read. -/
def wordsAux : List Char → List Char → List (List Char)
  | [], acc => if acc.isEmpty then [] else [acc.reverse]
  | c :: cs, acc =>
    if pyWs c then
      if acc.isEmpty then wordsAux cs [] else acc.reverse :: wordsAux cs []
    else wordsAux cs (c :: acc)

/-- Python `str.split()` (no separator): maximal runs of
non-whitespace characters. -/
def wordsOf (l : List Char) : List (List Char) := wordsAux l []

/-- Python `" ".join(ws)`: concatenate words with a single space
between consecutive words. -/
def joinWords : List (List Char) → List Char
  | [] => []
  | [w] => w
  | w :: ws => w ++ ' ' :: joinWords ws

/-- `app/sanctions_loader.py::_normalize`:
`" ".join(text.upper().split())`. -/
def loaderNormalize (s : String) : String :=
  ⟨joinWords (wordsOf (upperChars s.data))⟩

/-- `app/pure_risk_scorer.py::PureRiskScorer._normalize`:
`"" if not text else str(text).upper().strip()`. -/
def pureNormalize (s : String) : String :=
  if s = "" then "" else ⟨trimChars (upperChars s.data)⟩

/-- Python `str.strip()` on a `String`. -/
def stripStr (s : String) : String := ⟨trimChars s.data⟩

/-- Python `str.lower()` on a `String`. -/
def lowerStr (s : String) : String := ⟨lowerChars s.data⟩

/-- Python `str.upper()` on a `String`. -/
def upperStr (s : String) : String := ⟨upperChars s.data⟩

/-- Python substring containment `needle in hay` on character lists. -/
def listContainsSub (needle : List Char) : List Char → Bool
  | [] => needle.isEmpty
  | c :: cs => needle.isPrefixOf (c :: cs) || listContainsSub needle cs

/-- Python `needle in hay` for strings. -/
def strContains (hay needle : String) : Bool :=
  listContainsSub needle.data hay.data

/-! ## Reference tables (`PureRiskScorer.__init__`) -/

/-- FATF black-list country set (`self.BLACK_LIST_COUNTRIES`). -/
def BLACK_LIST_COUNTRIES : List String :=
  ["IRAN", "IRN", "ISLAMIC REPUBLIC OF IRAN", "IR",
   "NORTH KOREA", "DEMOCRATIC PEOPLE\x27S REPUBLIC OF KOREA", "DPRK",
   "KOREA NORTH", "PRK", "KP",
   "MYANMAR", "BURMA", "MMR", "MM"]

/-- FATF grey-list country set (`self.GREY_LIST_COUNTRIES`). -/
def GREY_LIST_COUNTRIES : List String :=
  ["ALGERIA", "DZA", "ANGOLA", "AGO", "BOLIVIA", "BOL",
   "BULGARIA", "BGR", "BURKINA FASO", "BFA",
   "CAMEROON", "CMR", "CROATIA", "HRV", "CRO",
   "DEMOCRATIC REPUBLIC OF CONGO", "DRC", "COD",
   "HAITI", "HTI", "JAMAICA", "JAM", "KENYA", "KEN",
   "MALI", "MLI", "MOZAMBIQUE", "MOZ",
   "NAMIBIA", "NAM", "NIGERIA", "NGA", "PHILIPPINES", "PHL", "PH",
   "SENEGAL", "SEN", "SOUTH AFRICA", "ZAF", "ZA",
   "SOUTH SUDAN", "SSD", "SS",
   "SYRIA", "SYR", "SY", "SYRIAN ARAB REPUBLIC",
   "TURKEY", "TUR", "TR", "TÜRKIYE", "TURKIYE",
   "UGANDA", "UGA", "UNITED ARAB EMIRATES", "UAE", "ARE",
   "VENEZUELA", "VEN", "VIETNAM", "VNM", "VN",
   "YEMEN", "YEM", "ZIMBABWE", "ZWE",
   "CÔTE D\x27IVOIRE", "COTE D\x27IVOIRE", "COTE DIVOIRE", "IVORY COAST", "CIV"]

/-- Cash-intensive occupation set (`self.CASH_INTENSIVE_OCCUPATIONS`). -/
def CASH_INTENSIVE_OCCUPATIONS : List String :=
  ["CURRENCY_EXCHANGE", "CURRENCY EXCHANGE", "MONEY EXCHANGE",
   "CASINO", "GAMBLING", "GAMING",
   "MONEY_TRANSFER", "MONEY TRANSFER", "REMITTANCE",
   "PAWN_SHOP", "PAWN SHOP", "PAWNBROKER",
   "JEWELRY", "JEWELLER", "JEWELER",
   "CAR DEALER", "AUTO DEALER", "VEHICLE SALES"]

/-! ## Customer row and the pure risk scorer (`app/pure_risk_scorer.py`) -/

/-- The Excel-row dictionary fields read by the scorers.  A field is
`none` when the key is absent from the row. -/
structure Row where
  CitizenshipDesc : Option String := none
  Citizenship : Option String := none
  Nationality : Option String := none
  BirthCountry : Option String := none
  RiskFlag : Option String := none
  LocalBlackListFlag : Option String := none
  MainAccount : Option String := none
  ExpiryDate : Option String := none
  ResidentStatus : Option String := none
deriving DecidableEq, Repr

/-- `PureRiskScorer._derive_country`: first of
CitizenshipDesc, Citizenship, Nationality, BirthCountry that is a
non-empty, non-blank string, normalized; `""` otherwise. -/
def deriveCountry (row : Row) : String :=
  let cands := [row.CitizenshipDesc, row.Citizenship, row.Nationality, row.BirthCountry]
  match cands.find? (fun c => c.getD "" != "" && stripStr (c.getD "") != "") with
  | some c => pureNormalize (c.getD "")
  | none => ""

/-- `PureRiskScorer._check_fatf_country`. -/
def checkFatfCountry (country : String) : Int × String :=
  let normalized := pureNormalize country
  if normalized = "" then (0, "")
  else if normalized ∈ BLACK_LIST_COUNTRIES then
    (80, "Country '" ++ country ++ "' is on FATF black list (high-risk jurisdiction)")
  else if normalized ∈ GREY_LIST_COUNTRIES then
    (50, "Country '" ++ country ++ "' is on FATF grey list (increased monitoring)")
  else (0, "")

/-- `PureRiskScorer._check_pep_status`. -/
def checkPepStatus (row : Row) : Int × String :=
  let riskFlag := pureNormalize (row.RiskFlag.getD "")
  if riskFlag = "PEP" then (30, "Customer is a Politically Exposed Person (PEP)")
  else (0, "")

/-- `PureRiskScorer._check_local_blacklist`. -/
def checkLocalBlacklist (row : Row) : Int × String :=
  let blacklistFlag := pureNormalize (row.LocalBlackListFlag.getD "")
  if blacklistFlag = "Y" ∨ blacklistFlag = "YES" then
    (100, "Customer is on local blacklist")
  else (0, "")

/-- `PureRiskScorer._check_cash_intensive_occupation`. -/
def checkCashIntensiveOccupation (row : Row) : Int × String :=
  let occupation := pureNormalize (row.MainAccount.getD "")
  if occupation = "" then (0, "")
  else if occupation ∈ CASH_INTENSIVE_OCCUPATIONS then
    (15, "Cash-intensive occupation: " ++ occupation)
  else (0, "")

/-- `PureRiskScorer._check_resident_status`. -/
def checkResidentStatus (row : Row) : Int × String :=
  let status := pureNormalize (row.ResidentStatus.getD "")
  if status ∈ ["NONRESIDENT", "NON-RESIDENT", "NON RESIDENT", "N"] then
    (15, "Customer is non-resident")
  else (0, "")

/-- The inline birth-country factor of `PureRiskScorer.assess_risk`
(lines 243-256): contributes only when the normalized birth country is
non-empty and differs from the derived primary country; half the FATF
score when the birth country is classified, a fixed +5 mismatch penalty
otherwise. -/
def pureBirthFactor (row : Row) : Int × List String :=
  let birthCountry := pureNormalize (row.BirthCountry.getD "")
  let mainCountry := deriveCountry row
  if birthCountry != "" && birthCountry != mainCountry then
    let f := checkFatfCountry birthCountry
    if f.1 > 0 then (f.1 / 2, ["Birth country: " ++ f.2])
    else (5, ["Birth country (" ++ birthCountry ++ ") differs from citizenship (" ++ mainCountry ++ ")"])
  else (0, [])

/-- Result dictionary of `PureRiskScorer.assess_risk`. -/
structure PureResult where
  risk_score : Int
  risk_flag : String
  risk_reason : String
deriving DecidableEq, Repr

/-- Contribution step used by `assess_risk`: each factor's score is
added, and its reason collected, only when the score is positive. -/
def addFactor (acc : Int × List String) (f : Int × String) : Int × List String :=
  if f.1 > 0 then (acc.1 + f.1, acc.2 ++ [f.2]) else acc

/-- The 3-band mapping of `PureRiskScorer.assess_risk`
(lines 285-291): RED at 80, YELLOW at 40, GREEN below. -/
def pureBand (total : Int) : String :=
  if total ≥ 80 then "RED"
  else if total ≥ 40 then "YELLOW"
  else "GREEN"

/-- `PureRiskScorer.assess_risk`.  The document-expiry factor
(`_check_document_expiry`) reads the wall clock (`datetime.now()`), so
its outcome is passed in as the parameter `docExpiry` — the
(score, reason) pair that factor produced for this row at the time of
the call. -/
def pureAssessRisk (row : Row) (docExpiry : Int × String) : PureResult :=
  let fBL := checkLocalBlacklist row
  if fBL.1 > 0 then ⟨100, "RED", fBL.2⟩
  else
    let mainCountry := deriveCountry row
    let acc := addFactor (0, []) (checkFatfCountry mainCountry)
    let fb := pureBirthFactor row
    let acc := (acc.1 + fb.1, acc.2 ++ fb.2)
    let acc := addFactor acc (checkPepStatus row)
    let acc := addFactor acc (checkCashIntensiveOccupation row)
    let acc := addFactor acc docExpiry
    let acc := addFactor acc (checkResidentStatus row)
    let totalScore := max 0 (min 100 acc.1)
    let riskFlag := pureBand totalScore
    let riskReason :=
      if acc.2 = [] then "No high-risk factors detected"
      else String.intercalate "; " acc.2
    ⟨totalScore, riskFlag, riskReason⟩

/-! ## Batch device-reuse tracker (`BulkRiskEngine._device_usage`) -/

/-- `self._device_usage : Dict[str, List[str]]`, modelled as an
insertion-ordered association list (Python dicts preserve insertion
order). -/
abbrev DeviceUsage := List (String × List String)

/-- Python `device_id in usage` / `usage[device_id]` read. -/
def devLookup (st : DeviceUsage) (d : String) : Option (List String) :=
  (st.find? (fun p => p.1 == d)).map (fun p => p.2)

/-- Python `usage[device_id] = cs`: overwrite in place when the key
exists, append at the end otherwise. -/
def devStore (st : DeviceUsage) (d : String) (cs : List String) : DeviceUsage :=
  match st with
  | [] => [(d, cs)]
  | (k, v) :: rest => if k = d then (k, cs) :: rest else (k, v) :: devStore rest d cs

/-- The registration step of `BulkRiskEngine._score_device_reuse`
(lines 142-147): ensure the device has an entry, then add the customer
to it if not already present. -/
def devRegister (st : DeviceUsage) (d c : String) : DeviceUsage :=
  let st1 := match devLookup st d with
    | none => devStore st d []
    | some _ => st
  match devLookup st1 d with
  | some cs => if c ∈ cs then st1 else devStore st1 d (cs ++ [c])
  | none => st1

/-- `len(self._device_usage[device_id])` (0 when the device is
unknown). -/
def devCount (st : DeviceUsage) (d : String) : Nat :=
  ((devLookup st d).getD []).length

/-- `BulkRiskEngine.reset_device_tracking`: `self._device_usage.clear()`. -/
def resetDeviceTracking (_st : DeviceUsage) : DeviceUsage := []

/-! ## Bulk risk engine (`app/bulk_risk_engine.py`) -/

/-- `risk_input["business"]`. -/
structure Business where
  mainAccount : Option String := none
  occupation : Option String := none
deriving DecidableEq, Repr

/-- `risk_input["digital"]`. -/
structure Digital where
  isVPN : Bool := false
  ipCountry : Option String := none
  email : Option String := none
  deviceId : Option String := none
deriving DecidableEq, Repr

/-- `risk_input["residency"]`. -/
structure Residency where
  residentStatus : Option String := none
deriving DecidableEq, Repr

/-- The fields of the `risk_input` dictionary read by
`BulkRiskEngine.assess`. -/
structure RiskInput where
  rawRow : Row := {}
  business : Business := {}
  digital : Digital := {}
  residency : Residency := {}
  citizenship : Option String := none
  customerNo : Option String := none
deriving DecidableEq, Repr

/-- `self.HIGH_RISK_OCCUPATIONS`, in dict insertion order. -/
def HIGH_RISK_OCCUPATIONS : List (String × Int) :=
  [("front_company_trader", 40),
   ("international_money_service_business", 40),
   ("cash_intensive_business", 30),
   ("casino", 35),
   ("cryptocurrency", 30),
   ("money_exchange", 35),
   ("real_estate", 20),
   ("precious_metals", 25),
   ("art_dealer", 20)]

/-- `self.HIGH_RISK_EMAIL_DOMAINS`. -/
def HIGH_RISK_EMAIL_DOMAINS : List String :=
  [".ru", ".ir", ".kp", ".sy", "tempmail", "guerrillamail", "10minutemail", "throwaway"]

/-- Python `risk_category.replace("_", " ")`. -/
def replaceUnderscore (s : String) : String :=
  ⟨s.data.map (fun c => if c = '_' then ' ' else c)⟩

/-- `BulkRiskEngine._score_birth_country`: half the FATF weight of the
birth country, with no comparison against the primary country. -/
def bulkScoreBirthCountry (row : Row) : Int × String :=
  let birthCountry := row.BirthCountry.getD ""
  let f := checkFatfCountry birthCountry
  if f.1 = 0 then (0, "")
  else (f.1 / 2, "Birth country: " ++ f.2)

/-- `BulkRiskEngine._score_occupation`. -/
def bulkScoreOccupation (ri : RiskInput) : Int × String :=
  let mainAccount := stripStr (lowerStr (ri.business.mainAccount.getD ""))
  let occupation := stripStr (lowerStr (ri.business.occupation.getD ""))
  let (score1, reasons1) :=
    match HIGH_RISK_OCCUPATIONS.find? (fun p => strContains mainAccount p.1) with
    | some (cat, sc) => (sc, ["High-risk business category: " ++ replaceUnderscore cat])
    | none => ((0 : Int), [])
  let (score2, reasons2) :=
    if occupation != "" then
      match HIGH_RISK_OCCUPATIONS.find? (fun p => strContains occupation (replaceUnderscore p.1)) with
      | some (_, sc) =>
        (max score1 sc,
         if ("High-risk occupation: " ++ occupation) ∈ reasons1 then reasons1
         else reasons1 ++ ["High-risk occupation: " ++ occupation])
      | none => (score1, reasons1)
    else (score1, reasons1)
  if score2 = 0 then
    let f := checkCashIntensiveOccupation ri.rawRow
    if f.1 > 0 then (f.1, String.intercalate "; " [f.2])
    else (0, "")
  else (score2, if reasons2 = [] then "" else String.intercalate "; " reasons2)

/-- `BulkRiskEngine._score_vpn_and_ip`. -/
def bulkScoreVpnIp (ri : RiskInput) : Int × String :=
  let citizenship := upperStr (ri.citizenship.getD "")
  let residentStatus := ri.residency.residentStatus.getD ""
  let ipCountry := upperStr (ri.digital.ipCountry.getD "")
  let (s1, r1) :=
    if ri.digital.isVPN then ((10 : Int), ["VPN usage detected"]) else (0, [])
  let (s2, r2) :=
    if ipCountry != "" && citizenship != "" && ipCountry != citizenship then
      if strContains (upperStr residentStatus) "NON" then
        ((5 : Int), ["IP country (" ++ ipCountry ++ ") differs from citizenship (" ++ citizenship ++ ") - expected for non-resident"])
      else
        (15, ["IP country (" ++ ipCountry ++ ") mismatch with citizenship (" ++ citizenship ++ ")"])
    else (0, [])
  let (s3, r3) :=
    if ipCountry ∈ BLACK_LIST_COUNTRIES then
      ((20 : Int), ["IP from FATF high-risk jurisdiction: " ++ ipCountry])
    else (0, [])
  let reasons := r1 ++ r2 ++ r3
  (s1 + s2 + s3, if reasons = [] then "" else String.intercalate "; " reasons)

/-- `BulkRiskEngine._score_device_reuse`: registers the
(device, customer) pair in the shared tracker and scores the resulting
distinct-customer count.  Returns the factor result together with the
updated tracker state. -/
def bulkScoreDeviceReuse (ri : RiskInput) (st : DeviceUsage) : (Int × String) × DeviceUsage :=
  let deviceId := ri.digital.deviceId.getD ""
  let customerNo := ri.customerNo.getD ""
  if deviceId = "" ∨ customerNo = "" then ((0, ""), st)
  else
    let st' := devRegister st deviceId customerNo
    let reuseCount := devCount st' deviceId
    if reuseCount ≥ 5 then
      ((20, "Device reused by " ++ toString reuseCount ++ " customers"), st')
    else if reuseCount ≥ 3 then
      ((10, "Device reused by " ++ toString reuseCount ++ " customers"), st')
    else ((0, ""), st')

/-- `BulkRiskEngine._score_email_risk`. -/
def bulkScoreEmail (ri : RiskInput) : Int × String :=
  let email := lowerStr (ri.digital.email.getD "")
  if email = "" ∨ ¬ strContains email "@" then (0, "")
  else
    let emailDomain := (email.splitOn "@").getLastD ""
    match HIGH_RISK_EMAIL_DOMAINS.find? (fun d => strContains emailDomain d) with
    | some _ => (10, String.intercalate "; " ["High-risk email domain: " ++ emailDomain])
    | none => (0, "")

/-- The `breakdown` dictionary of `BulkRiskEngine.assess`. -/
structure Breakdown where
  sanctions : Int
  pep : Int
  digitalFootprint : Int
  device : Int
  profile : Int
deriving DecidableEq, Repr

/-- Result dictionary of `BulkRiskEngine.assess`. -/
structure BulkResult where
  score : Int
  riskLevel : String
  breakdown : Breakdown
  drivers : List String
deriving DecidableEq, Repr

/-- `if r: reasons.append(r)`. -/
def appendReason (r : String) : List String :=
  if r = "" then [] else [r]

/-- The fixed 4-band mapping of `BulkRiskEngine.assess`
(lines 259-267). -/
def bulkBand (total : Int) : String :=
  if total ≥ 75 then "CRITICAL"
  else if total ≥ 50 then "HIGH"
  else if total ≥ 25 then "MEDIUM"
  else "LOW"

/-- Rank encoding of the fixed 4-band order
LOW < MEDIUM < HIGH < CRITICAL (used to state monotonicity). -/
def levelRank (level : String) : Nat :=
  if level = "LOW" then 0
  else if level = "MEDIUM" then 1
  else if level = "HIGH" then 2
  else if level = "CRITICAL" then 3
  else 0

/-- `BulkRiskEngine.assess`, threading the shared device tracker state
explicitly. -/
def bulkAssess (ri : RiskInput) (st : DeviceUsage) : BulkResult × DeviceUsage :=
  let row := ri.rawRow
  let fBL := checkLocalBlacklist row
  if fBL.1 > 0 then
    (⟨100, "CRITICAL", ⟨100, 0, 0, 0, 0⟩, [fBL.2]⟩, st)
  else
    let f1 := checkFatfCountry (deriveCountry row)
    let f2 := bulkScoreBirthCountry row
    let f3 := checkPepStatus row
    let f4 := bulkScoreOccupation ri
    let f5 := bulkScoreVpnIp ri
    let f6 := bulkScoreDeviceReuse ri st
    let f7 := bulkScoreEmail ri
    let sanctionsScore := f1.1 + f2.1
    let pepScore := f3.1
    let profileScore := f4.1
    let digitalScore := f5.1 + f7.1
    let deviceScore := f6.1.1
    let reasons :=
      appendReason f1.2 ++ appendReason f2.2 ++ appendReason f3.2 ++ appendReason f4.2 ++
      appendReason f5.2 ++ appendReason f6.1.2 ++ appendReason f7.2
    let total := sanctionsScore + pepScore + profileScore + digitalScore + deviceScore
    let total := max 0 (min 100 total)
    let level := bulkBand total
    let reasons := if reasons = [] then ["No high-risk factors detected"] else reasons
    (⟨total, level, ⟨sanctionsScore, pepScore, digitalScore, deviceScore, profileScore⟩, reasons⟩, f6.2)

/-! ## Advisory reconciliation (`app/llm_sanctions_risk.py`) -/

/-- The score/band/reasons dictionary carried between
`_baseline_sanctions_risk`, `_llm_overlay_on_top_of_baseline` and
`llm_score_sanctions`. -/
structure Assessment where
  risk_score : Int
  risk_band : String
  reasons : List String
deriving DecidableEq, Repr

/-- The `risk_score` field of the parsed LLM JSON:
absent, present but not convertible by `int(...)`, or an integer. -/
inductive ScoreField where
  | missing : ScoreField
  | unparsable : ScoreField
  | val : Int → ScoreField
deriving DecidableEq, Repr

/-- The parsed JSON object extracted from the LLM response:
`risk_band` is the string the field stringifies to (`none` = absent),
`reasonsField` is the reasons list after the `str(...)` coercion of
each element. -/
structure ParsedLLM where
  scoreField : ScoreField
  bandField : Option String
  reasonsField : List String
deriving DecidableEq, Repr

/-- Outcome of `json.loads` on the LLM response inside
`_llm_overlay_on_top_of_baseline` (step 3): either no parsable JSON
object, or a parsed object. -/
inductive LLMOutcome where
  | parseFail : LLMOutcome
  | parsed : ParsedLLM → LLMOutcome
deriving DecidableEq, Repr

/-- `band_rank = {"GREEN": 0, "YELLOW": 1, "RED": 2}` read through
`dict.get(·, 1)`. -/
def bandRankGet (b : String) : Nat :=
  if b = "GREEN" then 0
  else if b = "YELLOW" then 1
  else if b = "RED" then 2
  else 1

/-- Step 6 of `_llm_overlay_on_top_of_baseline`: start from the
baseline reasons and append each advisory reason not already present. -/
def mergeReasons (base llmReasons : List String) : List String :=
  llmReasons.foldl (fun acc r => if r ∈ acc then acc else acc ++ [r]) base

/-- `_llm_overlay_on_top_of_baseline`, steps 3-6 (the post-call
reconciliation; the RAG-context and LLM call themselves are the
nondeterministic `outcome`). -/
def llmOverlay (baseline : Assessment) (outcome : LLMOutcome) : Assessment :=
  match outcome with
  | .parseFail =>
    { baseline with reasons := baseline.reasons ++ ["LLM_FAILED_USED_BASELINE_ONLY"] }
  | .parsed p =>
    let llmScore0 : Int :=
      match p.scoreField with
      | .missing => baseline.risk_score
      | .unparsable => baseline.risk_score
      | .val n => n
    let llmScore := max 0 (min 100 llmScore0)
    let llmBand0 := upperStr (p.bandField.getD baseline.risk_band)
    let llmBand :=
      if llmBand0 ∈ ["GREEN", "YELLOW", "RED"] then llmBand0 else baseline.risk_band
    let finalScore := max baseline.risk_score llmScore
    let baseRank := bandRankGet baseline.risk_band
    let llmRank := bandRankGet llmBand
    let finalBand := if baseRank ≥ llmRank then baseline.risk_band else llmBand
    ⟨finalScore, finalBand, mergeReasons baseline.reasons p.reasonsField⟩

/-- Outcome of the whole `_llm_overlay_on_top_of_baseline` call as seen
by `llm_score_sanctions`: a returned value, or an unexpected exception
(named by its type). -/
inductive OverlayOutcome where
  | ok : LLMOutcome → OverlayOutcome
  | exn : String → OverlayOutcome
deriving DecidableEq, Repr

/-- `llm_score_sanctions`, taking the already-computed baseline and
the nondeterministic overlay outcome. -/
def llmScoreSanctions (baseline : Assessment) (useLlm : Bool) (outcome : OverlayOutcome) : Assessment :=
  if !useLlm then baseline
  else
    match outcome with
    | .ok o => llmOverlay baseline o
    | .exn exName =>
      { baseline with reasons := baseline.reasons ++ ["LLM_OVERLAY_ERROR_" ++ exName] }

/-! ## Sanctions candidate matcher (`app/sanction_matching.py`) -/

/-- `app/sanctions_loader.py::SanctionEntry`. -/
structure SanctionEntry where
  source : String
  name : String
  raw : String
deriving DecidableEq, Repr

/-- `MatchType = Literal["exact", "fuzzy", "phonetic"]`. -/
inductive MatchType where
  | exact : MatchType
  | fuzzy : MatchType
  | phonetic : MatchType
deriving DecidableEq, Repr

/-- `SanctionMatch`.  The float `similarity` is modelled as the exact
rational the source computes. -/
structure SanctionMatch where
  entry : SanctionEntry
  matchType : MatchType
  similarity : ℚ
  matchedName : String
deriving DecidableEq, Repr

/-- `code_for_char` inside `_soundex`: the six phonetic classes.  The
group strings are lowercase in the source, so an uppercase character
(as produced by `_normalize`) matches no group. -/
def codeForChar (c : Char) : Option Char :=
  if c ∈ "bfpv".data then some '1'
  else if c ∈ "cgjkqsxz".data then some '2'
  else if c ∈ "dt".data then some '3'
  else if c ∈ "l".data then some '4'
  else if c ∈ "mn".data then some '5'
  else if c ∈ "r".data then some '6'
  else none

/-- The digit loop of `_soundex`: skip uncoded characters and collapse
a digit equal to the last appended one. -/
def soundexDigits : List Char → Option Char → List Char
  | [], _ => []
  | c :: cs, last =>
    match codeForChar c with
    | none => soundexDigits cs last
    | some d => if last = some d then soundexDigits cs last
                else d :: soundexDigits cs (some d)

/-- Python `s.ljust(4, '0')` on a character list. -/
def ljustZero (l : List Char) : List Char :=
  l ++ List.replicate (4 - l.length) '0'

/-- `_soundex`. -/
def soundex (s : String) : String :=
  let name := loaderNormalize s
  match name.data with
  | [] => ""
  | c0 :: rest =>
    let digits := soundexDigits rest none
    ⟨ljustZero (c0.toUpper :: digits.take 3)⟩

/-- `_phonetic_equal`. -/
def phoneticEqual (a b : String) : Bool :=
  soundex a == soundex b && soundex a != ""

/-- Weighted Levenshtein distance with costs insert = delete = 1 and
substitute = 2 (a substitution of equal characters is free), the
distance underlying `Levenshtein.ratio`. -/
def levW : List Char → List Char → Nat
  | [], ys => ys.length
  | x :: xs, [] => (x :: xs).length
  | x :: xs, y :: ys =>
    min (1 + levW xs (y :: ys))
      (min (1 + levW (x :: xs) ys)
        ((if x = y then 0 else 2) + levW xs ys))
termination_by xs ys => xs.length + ys.length
decreasing_by all_goals simp +arith

/-- `Levenshtein.ratio`: `(lensum - dist) / lensum`, and `1` for two
empty strings. -/
def levRatio (a b : String) : ℚ :=
  let lensum := a.data.length + b.data.length
  if lensum = 0 then 1
  else ((lensum : ℚ) - levW a.data b.data) / lensum

/-- The per-entry body of the matching loop in
`match_sanctions_by_name`: at most one candidate per reference entry
(entries with empty normalized names are skipped). -/
def matchCandidate (normalized : String) (minSimilarity : ℚ) (fullName : String)
    (entry : SanctionEntry) : Option SanctionMatch :=
  let entryNameNorm := loaderNormalize entry.name
  if entryNameNorm = "" then none
  else if entryNameNorm = normalized then
    some ⟨entry, .exact, 1, fullName⟩
  else
    let sim := levRatio normalized entryNameNorm
    if sim ≥ minSimilarity then some ⟨entry, .fuzzy, sim, fullName⟩
    else if phoneticEqual normalized entryNameNorm then
      some ⟨entry, .phonetic, 85/100, fullName⟩
    else none

/-- `priority = {"exact": 3, "fuzzy": 2, "phonetic": 1}`. -/
def priorityOf : MatchType → Nat
  | .exact => 3
  | .fuzzy => 2
  | .phonetic => 1

/-- The sort key `(priority[m.match_type], m.similarity)`. -/
def sortKey (m : SanctionMatch) : Nat × ℚ :=
  (priorityOf m.matchType, m.similarity)

/-- The comparator realising Python's stable
`sort(key=..., reverse=True)`: `a` may precede `b` iff `b`'s key is
lexicographically at most `a`'s. -/
def sortLe (a b : SanctionMatch) : Bool :=
  decide (priorityOf b.matchType < priorityOf a.matchType ∨
    (priorityOf b.matchType = priorityOf a.matchType ∧ b.similarity ≤ a.similarity))

/-- The unsorted candidate list of `match_sanctions_by_name`, in
reference-list order. -/
def matchCandidates (entries : List SanctionEntry) (normalized : String)
    (minSimilarity : ℚ) (fullName : String) : List SanctionMatch :=
  entries.filterMap (matchCandidate normalized minSimilarity fullName)

/-- `app/sanctions_loader.py::FATFCategory`. -/
structure FATFCategory where
  key : String := ""
  name : String := ""
  description : String := ""
  countries : List String := []
deriving DecidableEq, Repr

/-- `app/sanctions_loader.py::SanctionsDataset`, the value returned by
`get_sanctions()`.  Its sanction-entry lists are `un_entries` and
`eu_entries`; the dataclass defines no `sanctions` field. -/
structure SanctionsDataset where
  as_of : Option String := none
  fatf_categories : List (String × FATFCategory) := []
  fatf_country_index : List (String × String) := []
  un_entries : List SanctionEntry := []
  eu_entries : List SanctionEntry := []
  names_index : List (String × List SanctionEntry) := []
deriving DecidableEq, Repr

/-- The exception raised by evaluating `data.sanctions` on a
`SanctionsDataset` value. -/
def attributeErrorSanctions : String :=
  "AttributeError: SanctionsDataset object has no attribute sanctions"

/-- `match_sanctions_by_name` as written (fallible): after the
empty-name check it evaluates `data.sanctions`
(sanction_matching.py:70), but the `SanctionsDataset` returned by
`get_sanctions()` has no `sanctions` attribute, so for every non-empty
normalized name the function raises `AttributeError` before producing
any match; its matching loop is unreachable.  The parameters it never
gets to use are kept for the call shape. -/
def matchSanctionsByNameRun (_data : SanctionsDataset) (fullName : String)
    (_minSimilarity : ℚ) : Except String (List SanctionMatch) :=
  let normalized := loaderNormalize fullName
  if normalized = "" then .ok []
  else .error attributeErrorSanctions

/-- The intended `match_sanctions_by_name`: the per-entry matching
loop and the sort of sanction_matching.py lines 70-118, translated
faithfully from the source, iterating the loaded sanctions entries.
The iterated collection — the sanctions-entry list the spec's
reference-data provider supplies, held by the dataset as
`un_entries ++ eu_entries` — is passed as the `entries` parameter,
since the `data.sanctions` access the source uses to obtain it raises
instead (see `matchSanctionsByNameRun`). -/
def matchSanctionsByNameIntended (entries : List SanctionEntry) (fullName : String)
    (minSimilarity : ℚ) : List SanctionMatch :=
  let normalized := loaderNormalize fullName
  if normalized = "" then []
  else (matchCandidates entries normalized minSimilarity fullName).mergeSort sortLe

/-! ## Theorems -/

/-- The final band picked by the overlay never ranks below the
baseline band. -/
theorem bandRankGet_final_le (base b : String) :
    bandRankGet base ≤ bandRankGet (if bandRankGet base ≥ bandRankGet b then base else b) := by
  by_cases h : bandRankGet base ≥ bandRankGet b
  · rw [if_pos h]
  · rw [if_neg h]
    omega

/-- C1: for every baseline assessment and every advisory outcome
(parse failure, overlay exception, or a parsed advisory result), the
reconciled assessment's score is at least the baseline score and its
band rank (under the fixed GREEN < YELLOW < RED order, unknown bands
ranking 1) is at least the baseline's band rank: the advisory input can
raise but never lower the baseline's score or band. -/
theorem llmScoreSanctions_never_downgrades (baseline : Assessment) (useLlm : Bool)
    (outcome : OverlayOutcome) :
    baseline.risk_score ≤ (llmScoreSanctions baseline useLlm outcome).risk_score ∧
    bandRankGet baseline.risk_band ≤
      bandRankGet (llmScoreSanctions baseline useLlm outcome).risk_band := by
  cases useLlm with
  | false => simp [llmScoreSanctions]
  | true =>
    cases outcome with
    | exn e => simp [llmScoreSanctions]
    | ok o =>
      cases o with
      | parseFail => simp [llmScoreSanctions, llmOverlay]
      | parsed p =>
        exact ⟨le_max_left _ _, bandRankGet_final_le baseline.risk_band _⟩

/-- C3: when the advisory call fails (no parsable JSON in the LLM
response) or the overlay raises, reconciliation returns the baseline
with score and band unchanged and exactly one fallback reason appended;
in particular a clean score-10 baseline stays at score 10. -/
theorem llm_fallback_returns_baseline (baseline : Assessment) (exName : String) :
    llmOverlay baseline .parseFail =
      { baseline with reasons := baseline.reasons ++ ["LLM_FAILED_USED_BASELINE_ONLY"] } ∧
    llmScoreSanctions baseline true (.exn exName) =
      { baseline with reasons := baseline.reasons ++ ["LLM_OVERLAY_ERROR_" ++ exName] } ∧
    (llmScoreSanctions ⟨10, "GREEN", ["No FATF/sanctions/local blacklist/PEP flags detected."]⟩
        true (.ok .parseFail)).risk_score = 10 ∧
    (llmScoreSanctions ⟨10, "GREEN", ["No FATF/sanctions/local blacklist/PEP flags detected."]⟩
        true (.ok .parseFail)).risk_band = "GREEN" :=
  ⟨rfl, rfl, rfl, rfl⟩

/-- C2: a record whose local-blacklist flag normalizes to "Y" or "YES"
is scored 100 with the highest band (CRITICAL in the bulk engine, RED
in the pure scorer) and the single blacklist reason, regardless of
every other field; the device tracker is left untouched. -/
theorem blacklist_short_circuit (ri : RiskInput) (st : DeviceUsage) (docExpiry : Int × String)
    (h : pureNormalize (ri.rawRow.LocalBlackListFlag.getD "") = "Y" ∨
         pureNormalize (ri.rawRow.LocalBlackListFlag.getD "") = "YES") :
    bulkAssess ri st =
      (⟨100, "CRITICAL", ⟨100, 0, 0, 0, 0⟩, ["Customer is on local blacklist"]⟩, st) ∧
    pureAssessRisk ri.rawRow docExpiry = ⟨100, "RED", "Customer is on local blacklist"⟩ := by
  have hbl : checkLocalBlacklist ri.rawRow = (100, "Customer is on local blacklist") := by
    unfold checkLocalBlacklist
    rw [if_pos h]
  constructor
  · simp only [bulkAssess, hbl]
    norm_num
  · simp only [pureAssessRisk, hbl]
    norm_num

/-- Witness for C2 at a concrete record. -/
theorem blacklist_short_circuit_witness :
    (pureNormalize ((({ rawRow := { LocalBlackListFlag := some "Y" } } : RiskInput)).rawRow.LocalBlackListFlag.getD "") = "Y" ∨
     pureNormalize ((({ rawRow := { LocalBlackListFlag := some "Y" } } : RiskInput)).rawRow.LocalBlackListFlag.getD "") = "YES") ∧
    (bulkAssess { rawRow := { LocalBlackListFlag := some "Y" } } [] =
      (⟨100, "CRITICAL", ⟨100, 0, 0, 0, 0⟩, ["Customer is on local blacklist"]⟩, []) ∧
     pureAssessRisk ({ LocalBlackListFlag := some "Y" } : Row) (0, "") =
      ⟨100, "RED", "Customer is on local blacklist"⟩) :=
  ⟨by decide,
   blacklist_short_circuit { rawRow := { LocalBlackListFlag := some "Y" } } [] (0, "") (by decide)⟩

/-- C4 counterexample: the claim's single 75/50/25
CRITICAL/HIGH/MEDIUM/LOW threshold scheme does not describe the pure
scorer.  A grey-list citizenship (50) plus a grey-list birth country at
half weight (25) scores exactly 75, which the pure scorer banded
"YELLOW" (its scheme is 80/40 RED/YELLOW/GREEN), not "CRITICAL". -/
theorem score_band_counterexample :
    pureAssessRisk { Citizenship := some "TURKEY", BirthCountry := some "NIGERIA" } (0, "") =
      ⟨75, "YELLOW",
        "Country 'TURKEY' is on FATF grey list (increased monitoring); Birth country: Country 'NIGERIA' is on FATF grey list (increased monitoring)"⟩ ∧
    "YELLOW" ≠ "CRITICAL" := by
  constructor
  · decide
  · decide

/-- C4 amended: both scorers clamp the total score to [0,100].  The
bulk engine's band is exactly `bulkBand` of its score (75/50/25,
CRITICAL/HIGH/MEDIUM/LOW), a monotonic pure function of the score; the
pure scorer's flag is exactly `pureBand` of its score (80/40,
RED/YELLOW/GREEN), also a monotonic pure function of the score. -/
theorem score_range_and_band (ri : RiskInput) (st : DeviceUsage) (row : Row)
    (docExpiry : Int × String) :
    (0 ≤ (bulkAssess ri st).1.score ∧ (bulkAssess ri st).1.score ≤ 100 ∧
      (bulkAssess ri st).1.riskLevel = bulkBand (bulkAssess ri st).1.score) ∧
    (0 ≤ (pureAssessRisk row docExpiry).risk_score ∧
      (pureAssessRisk row docExpiry).risk_score ≤ 100 ∧
      (pureAssessRisk row docExpiry).risk_flag = pureBand (pureAssessRisk row docExpiry).risk_score) ∧
    (∀ s t : Int, s ≤ t → levelRank (bulkBand s) ≤ levelRank (bulkBand t)) ∧
    (∀ s t : Int, s ≤ t → bandRankGet (pureBand s) ≤ bandRankGet (pureBand t)) := by
  refine ⟨?_, ?_, ?_, ?_⟩
  · by_cases hb : (checkLocalBlacklist ri.rawRow).1 > 0
    · simp only [bulkAssess, if_pos hb]
      refine ⟨by norm_num, by norm_num, by decide⟩
    · simp only [bulkAssess, if_neg hb]
      exact ⟨le_max_left _ _, by omega, trivial⟩
  · by_cases hb : (checkLocalBlacklist row).1 > 0
    · simp only [pureAssessRisk, if_pos hb]
      refine ⟨by norm_num, by norm_num, by decide⟩
    · simp only [pureAssessRisk, if_neg hb]
      exact ⟨le_max_left _ _, by omega, trivial⟩
  · intro s t hst
    unfold bulkBand
    split_ifs <;> first | decide | omega
  · intro s t hst
    unfold pureBand
    split_ifs <;> first | decide | omega

/-- Witness for C4 at concrete inputs. -/
theorem score_range_and_band_witness :
    (0 ≤ (bulkAssess {} []).1.score ∧ (bulkAssess {} []).1.score ≤ 100 ∧
      (bulkAssess {} []).1.riskLevel = bulkBand (bulkAssess {} []).1.score) ∧
    ((30 : Int) ≤ 80) ∧ levelRank (bulkBand 30) ≤ levelRank (bulkBand 80) ∧
    bandRankGet (pureBand 30) ≤ bandRankGet (pureBand 80) :=
  ⟨(score_range_and_band {} [] {} (0, "")).1,
   by decide,
   (score_range_and_band {} [] {} (0, "")).2.2.1 30 80 (by decide),
   (score_range_and_band {} [] {} (0, "")).2.2.2 30 80 (by decide)⟩

/-- C5 counterexample: in the bulk engine the birth-country factor
contributes even when the birth country equals the primary country.
With citizenship and birth country both "TURKEY" (no blacklist flag),
the birth country equals the derived primary country, yet
`_score_birth_country` still adds 25 (= 50 / 2), taking the assessment
to 75/CRITICAL instead of the 50/HIGH the claim implies. -/
theorem birth_factor_counterexample :
    (let row : Row := { Citizenship := some "TURKEY", BirthCountry := some "TURKEY" }
     checkLocalBlacklist row = (0, "") ∧
     pureNormalize (row.BirthCountry.getD "") = deriveCountry row ∧
     bulkScoreBirthCountry row =
       (25, "Birth country: Country 'TURKEY' is on FATF grey list (increased monitoring)") ∧
     (bulkAssess { rawRow := row } []).1.score = 75 ∧
     (bulkAssess { rawRow := row } []).1.riskLevel = "CRITICAL") := by
  refine ⟨by decide, by decide, by decide, by decide, by decide⟩

/-- C5 amended: the pure scorer's birth-country factor behaves exactly
as claimed — no contribution when the normalized birth country is
empty or equals the primary country, half the FATF score (rounded
down) when it differs and is classified, a fixed +5 penalty when it
differs and is unclassified.  The bulk engine's
`_score_birth_country`, however, never compares against the primary
country: it adds half the birth country's FATF score whenever the
birth country is classified (even when equal to the primary country)
and adds no mismatch penalty otherwise. -/
theorem birth_factor_amended (row : Row) :
    (pureNormalize (row.BirthCountry.getD "") = "" ∨
        pureNormalize (row.BirthCountry.getD "") = deriveCountry row →
      pureBirthFactor row = (0, [])) ∧
    (pureNormalize (row.BirthCountry.getD "") ≠ "" →
      pureNormalize (row.BirthCountry.getD "") ≠ deriveCountry row →
      (0 < (checkFatfCountry (pureNormalize (row.BirthCountry.getD ""))).1 →
        (pureBirthFactor row).1 =
          (checkFatfCountry (pureNormalize (row.BirthCountry.getD ""))).1 / 2) ∧
      ((checkFatfCountry (pureNormalize (row.BirthCountry.getD ""))).1 ≤ 0 →
        (pureBirthFactor row).1 = 5)) ∧
    ((checkFatfCountry (row.BirthCountry.getD "")).1 = 0 →
      bulkScoreBirthCountry row = (0, "")) ∧
    ((checkFatfCountry (row.BirthCountry.getD "")).1 ≠ 0 →
      bulkScoreBirthCountry row =
        ((checkFatfCountry (row.BirthCountry.getD "")).1 / 2,
         "Birth country: " ++ (checkFatfCountry (row.BirthCountry.getD "")).2)) := by
  refine ⟨?_, ?_, ?_, ?_⟩
  · intro h
    rcases h with h | h
    · simp [pureBirthFactor, h]
    · simp [pureBirthFactor, h]
  · intro h1 h2
    constructor
    · intro hpos
      simp [pureBirthFactor, bne_iff_ne, h1, h2, hpos]
    · intro hz
      have hneg : ¬ ((checkFatfCountry (pureNormalize (row.BirthCountry.getD ""))).1 > 0) := by
        omega
      simp [pureBirthFactor, bne_iff_ne, h1, h2, hneg]
  · intro h
    simp [bulkScoreBirthCountry, h]
  · intro h
    simp [bulkScoreBirthCountry, h]

/-- Witness for C5 at concrete records: a record whose birth country
equals its citizenship (no pure contribution) and a record whose birth
country is black-listed while the citizenship is not (half-weight
contributions in both scorers). -/
theorem birth_factor_amended_witness :
    pureBirthFactor { Citizenship := some "TURKEY", BirthCountry := some "TURKEY" } = (0, []) ∧
    (pureBirthFactor { Citizenship := some "FRANCE", BirthCountry := some "IRAN" }).1 =
      (checkFatfCountry (pureNormalize
        (({ Citizenship := some "FRANCE", BirthCountry := some "IRAN" } : Row).BirthCountry.getD ""))).1 / 2 ∧
    bulkScoreBirthCountry { Citizenship := some "FRANCE", BirthCountry := some "IRAN" } =
      ((checkFatfCountry
          (({ Citizenship := some "FRANCE", BirthCountry := some "IRAN" } : Row).BirthCountry.getD "")).1 / 2,
       "Birth country: " ++
         (checkFatfCountry
           (({ Citizenship := some "FRANCE", BirthCountry := some "IRAN" } : Row).BirthCountry.getD "")).2) :=
  ⟨(birth_factor_amended { Citizenship := some "TURKEY", BirthCountry := some "TURKEY" }).1
     (Or.inr (by decide)),
   ((birth_factor_amended { Citizenship := some "FRANCE", BirthCountry := some "IRAN" }).2.1
     (by decide) (by decide)).1 (by decide),
   (birth_factor_amended { Citizenship := some "FRANCE", BirthCountry := some "IRAN" }).2.2.2
     (by decide)⟩

/-- The baseline list is a prefix of the dedup-append fold. -/
theorem merge_foldl_isPre (l acc : List String) :
    acc <+: List.foldl (fun acc r => if r ∈ acc then acc else acc ++ [r]) acc l := by
  induction l generalizing acc with
  | nil => exact List.prefix_refl _
  | cons r l ih =>
    simp only [List.foldl_cons]
    refine List.IsPrefix.trans ?_ (ih _)
    by_cases h : r ∈ acc
    · rw [if_pos h]
    · rw [if_neg h]
      exact ⟨[r], rfl⟩

/-- The dedup-append fold preserves `Nodup`. -/
theorem merge_foldl_nodup (l : List String) (acc : List String) (h : acc.Nodup) :
    (List.foldl (fun acc r => if r ∈ acc then acc else acc ++ [r]) acc l).Nodup := by
  induction l generalizing acc with
  | nil => exact h
  | cons r l ih =>
    simp only [List.foldl_cons]
    by_cases hr : r ∈ acc
    · rw [if_pos hr]
      exact ih _ h
    · rw [if_neg hr]
      refine ih _ ?_
      rw [List.nodup_append]
      exact ⟨h, List.nodup_singleton r, by simp [hr]⟩

/-- Membership in the dedup-append fold. -/
theorem merge_foldl_mem (l acc : List String) (x : String) :
    x ∈ List.foldl (fun acc r => if r ∈ acc then acc else acc ++ [r]) acc l ↔
      x ∈ acc ∨ x ∈ l := by
  induction l generalizing acc with
  | nil => simp
  | cons r l ih =>
    simp only [List.foldl_cons]
    by_cases h : r ∈ acc
    · rw [if_pos h, ih]
      constructor
      · rintro (hx | hx)
        · exact Or.inl hx
        · exact Or.inr (List.mem_cons_of_mem _ hx)
      · rintro (hx | hx)
        · exact Or.inl hx
        · rcases List.mem_cons.1 hx with rfl | hx
          · exact Or.inl h
          · exact Or.inr hx
    · rw [if_neg h, ih]
      simp only [List.mem_append, List.mem_singleton, List.mem_cons]
      tauto

/-- C6 counterexample: the merge does not deduplicate the baseline
list itself, so a baseline with a repeated reason yields a reconciled
list with duplicates. -/
theorem merge_reasons_counterexample :
    mergeReasons ["a", "a"] [] = ["a", "a"] ∧ ¬ (mergeReasons ["a", "a"] []).Nodup :=
  ⟨rfl, by decide⟩

/-- C6 amended: the reconciled reasons list starts with all baseline
reasons in their original order, an advisory reason is added exactly
when not already present (string equality, against the growing list),
and the result has no duplicates provided the baseline reasons list
itself has none; the overlay's reasons are exactly this merge. -/
theorem merge_reasons_amended (base llmReasons : List String) :
    base <+: mergeReasons base llmReasons ∧
    (base.Nodup → (mergeReasons base llmReasons).Nodup) ∧
    (∀ r, r ∈ mergeReasons base llmReasons ↔ r ∈ base ∨ r ∈ llmReasons) ∧
    (∀ (b : Assessment) (p : ParsedLLM),
      (llmOverlay b (.parsed p)).reasons = mergeReasons b.reasons p.reasonsField) :=
  ⟨merge_foldl_isPre llmReasons base,
   fun h => merge_foldl_nodup llmReasons base h,
   fun r => merge_foldl_mem llmReasons base r,
   fun _ _ => rfl⟩

/-- Witness for C6 at concrete lists. -/
theorem merge_reasons_amended_witness :
    List.Nodup ["x"] ∧ (mergeReasons ["x"] ["x", "y"]).Nodup :=
  ⟨by decide, (merge_reasons_amended ["x"] ["x", "y"]).2.1 (by decide)⟩

/-- Reading an association-list cons cell. -/
theorem devLookup_cons (k : String) (v : List String) (rest : DeviceUsage) (d : String) :
    devLookup ((k, v) :: rest) d = if k = d then some v else devLookup rest d := by
  by_cases h : k = d
  · simp [devLookup, List.find?_cons, h]
  · simp [devLookup, List.find?_cons, h]

/-- Looking up the key just stored yields the stored value. -/
theorem devLookup_devStore_self (st : DeviceUsage) (d : String) (cs : List String) :
    devLookup (devStore st d cs) d = some cs := by
  induction st with
  | nil => simp [devStore, devLookup, List.find?_cons]
  | cons p rest ih =>
    obtain ⟨k, v⟩ := p
    by_cases h : k = d
    · subst h
      simp [devStore, devLookup_cons]
    · simp only [devStore, if_neg h]
      rw [devLookup_cons, if_neg h]
      exact ih

/-- Storing twice under the same key keeps only the second value. -/
theorem devStore_devStore (st : DeviceUsage) (d : String) (cs1 cs2 : List String) :
    devStore (devStore st d cs1) d cs2 = devStore st d cs2 := by
  induction st with
  | nil => simp [devStore]
  | cons p rest ih =>
    obtain ⟨k, v⟩ := p
    by_cases h : k = d
    · subst h
      simp [devStore]
    · simp [devStore, h, ih]

/-- `devRegister` on an unknown device creates a singleton entry. -/
theorem devRegister_of_none (st : DeviceUsage) (d c : String)
    (h : devLookup st d = none) : devRegister st d c = devStore st d [c] := by
  unfold devRegister
  rw [h]
  simp only [devLookup_devStore_self, List.not_mem_nil, if_neg (List.not_mem_nil c)]
  simp only [if_false, List.nil_append]
  rw [devStore_devStore]

/-- `devRegister` of an already-registered customer is the identity. -/
theorem devRegister_of_mem (st : DeviceUsage) (d c : String) (cs : List String)
    (h : devLookup st d = some cs) (hc : c ∈ cs) : devRegister st d c = st := by
  unfold devRegister
  rw [h]
  simp only [h, if_pos hc]

/-- `devRegister` of a new customer appends it to the device's set. -/
theorem devRegister_of_not_mem (st : DeviceUsage) (d c : String) (cs : List String)
    (h : devLookup st d = some cs) (hc : c ∉ cs) :
    devRegister st d c = devStore st d (cs ++ [c]) := by
  unfold devRegister
  rw [h]
  simp only [h, if_neg hc]

/-- After registering a not-yet-present customer, the device's set is
the old set with the customer appended. -/
theorem devLookup_devRegister_of_not_mem (st : DeviceUsage) (d c : String)
    (h : c ∉ (devLookup st d).getD []) :
    devLookup (devRegister st d c) d = some ((devLookup st d).getD [] ++ [c]) := by
  cases hl : devLookup st d with
  | none =>
    rw [devRegister_of_none st d c hl, devLookup_devStore_self]
    rfl
  | some cs =>
    rw [devRegister_of_not_mem st d c cs hl (by simpa [hl] using h),
      devLookup_devStore_self]
    rfl

/-- Registering the same (device, customer) pair twice changes
nothing. -/
theorem devRegister_idem (st : DeviceUsage) (d c : String) :
    devRegister (devRegister st d c) d c = devRegister st d c := by
  cases hl : devLookup st d with
  | none =>
    rw [devRegister_of_none st d c hl]
    exact devRegister_of_mem _ d c [c] (devLookup_devStore_self st d [c]) (by simp)
  | some cs =>
    by_cases hc : c ∈ cs
    · rw [devRegister_of_mem st d c cs hl hc, devRegister_of_mem st d c cs hl hc]
    · rw [devRegister_of_not_mem st d c cs hl hc]
      exact devRegister_of_mem _ d c (cs ++ [c])
        (devLookup_devStore_self st d (cs ++ [c])) (by simp)

/-- Registering a new customer increments the device's
distinct-customer count. -/
theorem devCount_devRegister_of_not_mem (st : DeviceUsage) (d c : String)
    (h : c ∉ (devLookup st d).getD []) :
    devCount (devRegister st d c) d = devCount st d + 1 := by
  unfold devCount
  rw [devLookup_devRegister_of_not_mem st d c h]
  simp

/-- Folding `devRegister` over pairwise-distinct, not-yet-registered
customers adds exactly their number to the count. -/
theorem devCount_foldl_distinct (d : String) (cs : List String) : ∀ (st : DeviceUsage),
    (∀ x ∈ cs, x ∉ (devLookup st d).getD []) → cs.Nodup →
    devCount (cs.foldl (fun s x => devRegister s d x) st) d = devCount st d + cs.length := by
  induction cs with
  | nil =>
    intro st _ _
    simp
  | cons c cs ih =>
    intro st hmem hnd
    simp only [List.foldl_cons]
    have hc : c ∉ (devLookup st d).getD [] := hmem c (by simp)
    have hlook := devLookup_devRegister_of_not_mem st d c hc
    rw [ih (devRegister st d c) ?_ (List.Nodup.of_cons hnd)]
    · rw [devCount_devRegister_of_not_mem st d c hc, List.length_cons]
      omega
    · intro x hx
      rw [hlook]
      simp only [Option.getD_some, List.mem_append, List.mem_singleton]
      rintro (h1 | rfl)
      · exact hmem x (List.mem_cons_of_mem _ hx) h1
      · exact (List.nodup_cons.1 hnd).1 hx

/-- C9: registering the same (device, customer) pair twice leaves the
tracker state (hence the distinct-customer count) unchanged;
registering N pairwise-distinct customers against one device starting
from a cleared tracker yields count N; `reset_device_tracking` clears
all state; and `_score_device_reuse` updates the tracker exactly by
`devRegister` when both identifiers are non-empty. -/
theorem device_tracker_contract (st : DeviceUsage) (d c : String) (cs : List String)
    (h : cs.Nodup) :
    devRegister (devRegister st d c) d c = devRegister st d c ∧
    devCount (cs.foldl (fun s x => devRegister s d x) []) d = cs.length ∧
    resetDeviceTracking st = [] ∧
    devCount (resetDeviceTracking st) d = 0 ∧
    (∀ (ri : RiskInput), ri.digital.deviceId.getD "" ≠ "" → ri.customerNo.getD "" ≠ "" →
      (bulkScoreDeviceReuse ri st).2 =
        devRegister st (ri.digital.deviceId.getD "") (ri.customerNo.getD "")) := by
  refine ⟨devRegister_idem st d c, ?_, rfl, rfl, ?_⟩
  · have hstep := devCount_foldl_distinct d cs []
      (by intro x hx; simp [devLookup]) h
    simpa [devCount, devLookup] using hstep
  · intro ri h1 h2
    unfold bulkScoreDeviceReuse
    rw [if_neg (by simp [h1, h2])]
    dsimp only
    split
    · rfl
    · split
      · rfl
      · rfl

/-- Witness for C9 at concrete identifiers. -/
theorem device_tracker_contract_witness :
    List.Nodup ["A", "B", "C"] ∧
    devCount (["A", "B", "C"].foldl (fun s x => devRegister s "D" x) []) "D" = 3 :=
  ⟨by decide,
   (device_tracker_contract [("D", ["X"])] "D" "C" ["A", "B", "C"] (by decide)).2.1⟩

/-- C8 counterexample: at input name "JOHN" the matcher does not
return any candidate list at all — the `data.sanctions` access raises
— so in particular it never returns a list truncated to 5-10
candidates; and no truncation exists in the matcher even at intent
level: the intended matching loop, run over a reference list of 11
entries sharing one normalized name, yields all 11 (exact)
candidates. -/
theorem matcher_no_truncation_counterexample :
    matchSanctionsByNameRun {} "JOHN" (8/10) = .error attributeErrorSanctions ∧
    (∀ l : List SanctionMatch, matchSanctionsByNameRun {} "JOHN" (8/10) ≠ .ok l) ∧
    10 < (matchSanctionsByNameIntended
      (List.replicate 11 ⟨"UN", "JOHN", "x"⟩) "JOHN" (8/10)).length := by
  refine ⟨?_, ?_, ?_⟩
  · simp only [matchSanctionsByNameRun]
    rw [if_neg (by decide)]
  · intro l h
    simp only [matchSanctionsByNameRun] at h
    rw [if_neg (by decide)] at h
    exact Except.noConfusion h
  · simp only [matchSanctionsByNameIntended]
    rw [if_neg (by decide)]
    rw [(List.mergeSort_perm _ _).length_eq]
    decide

/-- C8 amended: `match_sanctions_by_name` successfully returns only
for an empty normalized name (the empty list); for every other input
it raises instead of returning a ranked list.  No top-N truncation
exists in it: even the intended matching loop is bounded only by one
candidate per reference entry (the top-10/top-5 slicing lives solely
in the downstream candidate assembler). -/
theorem matcher_length_le_entries (ds : SanctionsDataset) (entries : List SanctionEntry)
    (fullName : String) (minSimilarity : ℚ) :
    (loaderNormalize fullName = "" →
      matchSanctionsByNameRun ds fullName minSimilarity = .ok []) ∧
    (loaderNormalize fullName ≠ "" →
      matchSanctionsByNameRun ds fullName minSimilarity = .error attributeErrorSanctions) ∧
    (matchSanctionsByNameIntended entries fullName minSimilarity).length ≤ entries.length := by
  refine ⟨?_, ?_, ?_⟩
  · intro h
    simp only [matchSanctionsByNameRun]
    rw [if_pos h]
  · intro h
    simp only [matchSanctionsByNameRun]
    rw [if_neg h]
  · simp only [matchSanctionsByNameIntended, matchCandidates]
    split
    · simp
    · rw [List.length_mergeSort]
      exact List.length_filterMap_le _ _

/-- Witness for C8 at concrete inputs. -/
theorem matcher_length_le_entries_witness :
    matchSanctionsByNameRun {} "" (8/10) = .ok [] ∧
    matchSanctionsByNameRun {} "JOHN X" (8/10) = .error attributeErrorSanctions :=
  ⟨(matcher_length_le_entries {} [] "" (8/10)).1 (by decide),
   (matcher_length_le_entries {} [] "JOHN X" (8/10)).2.1 (by decide)⟩

/-- Characters with equal code points are equal. -/
theorem char_eq_of_toNat_eq {c d : Char} (h : c.toNat = d.toNat) : c = d :=
  Char.eq_of_val_eq (UInt32.eq_of_toBitVec_eq (BitVec.eq_of_toNat_eq h))

/-- Code point of `Char.ofNat` below the surrogate range. -/
theorem char_toNat_ofNat (m : Nat) (h : m < 55296) : (Char.ofNat m).toNat = m := by
  unfold Char.ofNat
  rw [dif_pos (Or.inl h)]
  rfl

/-- The ASCII upper-case map is idempotent. -/
theorem toUpper_toUpper (c : Char) : c.toUpper.toUpper = c.toUpper := by
  simp only [Char.toUpper]
  by_cases h : c.toNat ≥ 97 ∧ c.toNat ≤ 122
  · rw [if_pos h]
    have h2 : (Char.ofNat (c.toNat - 32)).toNat = c.toNat - 32 :=
      char_toNat_ofNat _ (by omega)
    rw [if_neg (by rw [h2]; omega)]
  · rw [if_neg h, if_neg h]

/-- `pyWs` in terms of code points. -/
theorem pyWs_iff (c : Char) :
    pyWs c = true ↔ (c.toNat = 32 ∨ c.toNat = 9 ∨ c.toNat = 10 ∨
      c.toNat = 13 ∨ c.toNat = 11 ∨ c.toNat = 12) := by
  unfold pyWs
  simp only [Bool.or_eq_true, decide_eq_true_eq]
  constructor
  · rintro (((((rfl | rfl) | rfl) | rfl) | rfl) | rfl) <;> decide
  · rintro (h | h | h | h | h | h)
    · have hc : c = ' ' := char_eq_of_toNat_eq (by rw [h]; rfl)
      subst hc; decide
    · have hc : c = '\t' := char_eq_of_toNat_eq (by rw [h]; rfl)
      subst hc; decide
    · have hc : c = '\n' := char_eq_of_toNat_eq (by rw [h]; rfl)
      subst hc; decide
    · have hc : c = '\r' := char_eq_of_toNat_eq (by rw [h]; rfl)
      subst hc; decide
    · have hc : c = '\x0b' := char_eq_of_toNat_eq (by rw [h]; rfl)
      subst hc; decide
    · have hc : c = '\x0c' := char_eq_of_toNat_eq (by rw [h]; rfl)
      subst hc; decide

/-- Upper-casing does not change whitespace-ness. -/
theorem pyWs_toUpper (c : Char) : pyWs c.toUpper = pyWs c := by
  simp only [Char.toUpper]
  by_cases h : c.toNat ≥ 97 ∧ c.toNat ≤ 122
  · rw [if_pos h]
    have h2 : (Char.ofNat (c.toNat - 32)).toNat = c.toNat - 32 :=
      char_toNat_ofNat _ (by omega)
    have l1 : pyWs (Char.ofNat (c.toNat - 32)) = false := by
      rw [← Bool.not_eq_true, pyWs_iff, h2]
      omega
    have l2 : pyWs c = false := by
      rw [← Bool.not_eq_true, pyWs_iff]
      omega
    rw [l1, l2]
  · rw [if_neg h]

/-- `dropWhile` is idempotent. -/
theorem dropWhile_dropWhile (p : Char → Bool) (l : List Char) :
    (l.dropWhile p).dropWhile p = l.dropWhile p := by
  induction l with
  | nil => rfl
  | cons a l ih =>
    by_cases h : p a
    · rw [List.dropWhile_cons_of_pos h]
      exact ih
    · rw [List.dropWhile_cons_of_neg h, List.dropWhile_cons_of_neg h]

/-- The head surviving a `dropWhile` fails the predicate. -/
theorem dropWhile_eq_cons_not (p : Char → Bool) (l : List Char) (a : Char) (t : List Char)
    (h : l.dropWhile p = a :: t) : p a = false := by
  induction l with
  | nil => simp at h
  | cons x xs ih =>
    by_cases hx : p x
    · rw [List.dropWhile_cons_of_pos hx] at h
      exact ih h
    · rw [List.dropWhile_cons_of_neg hx] at h
      cases h
      exact Bool.eq_false_iff.mpr hx

/-- Upper-casing commutes with trimming. -/
theorem trimChars_upperChars (l : List Char) :
    trimChars (upperChars l) = upperChars (trimChars l) := by
  have hpw : (pyWs ∘ Char.toUpper) = pyWs := funext pyWs_toUpper
  unfold trimChars upperChars
  rw [List.dropWhile_map, hpw, ← List.map_reverse, List.dropWhile_map, hpw, ← List.map_reverse]

/-- Upper-casing is idempotent on character lists. -/
theorem upperChars_upperChars (l : List Char) :
    upperChars (upperChars l) = upperChars l := by
  unfold upperChars
  rw [List.map_map]
  exact List.map_congr_left fun c _ => toUpper_toUpper c

/-- Trimming is idempotent. -/
theorem trimChars_trimChars (l : List Char) :
    trimChars (trimChars l) = trimChars l := by
  have hBrev : (trimChars l).reverse = (l.dropWhile pyWs).reverse.dropWhile pyWs := by
    unfold trimChars
    rw [List.reverse_reverse]
  have hA : l.dropWhile pyWs =
      trimChars l ++ ((l.dropWhile pyWs).reverse.takeWhile pyWs).reverse := by
    calc l.dropWhile pyWs = ((l.dropWhile pyWs).reverse).reverse := by
          rw [List.reverse_reverse]
    _ = ((l.dropWhile pyWs).reverse.takeWhile pyWs ++
          (l.dropWhile pyWs).reverse.dropWhile pyWs).reverse := by
          rw [List.takeWhile_append_dropWhile]
    _ = ((l.dropWhile pyWs).reverse.dropWhile pyWs).reverse ++
          ((l.dropWhile pyWs).reverse.takeWhile pyWs).reverse := by
          rw [List.reverse_append]
    _ = trimChars l ++ ((l.dropWhile pyWs).reverse.takeWhile pyWs).reverse := rfl
  have hstep1 : (trimChars l).dropWhile pyWs = trimChars l := by
    cases hB : trimChars l with
    | nil => rfl
    | cons b B =>
      have hAcons : l.dropWhile pyWs =
          b :: (B ++ ((l.dropWhile pyWs).reverse.takeWhile pyWs).reverse) := by
        conv_lhs => rw [hA, hB]
        rw [List.cons_append]
      have hb : pyWs b = false := dropWhile_eq_cons_not pyWs l b _ hAcons
      rw [List.dropWhile_cons_of_neg (by simp [hb])]
  have hstep2 : ((trimChars l).reverse).dropWhile pyWs = (trimChars l).reverse := by
    rw [hBrev]
    exact dropWhile_dropWhile pyWs _
  calc trimChars (trimChars l)
      = (((trimChars l).dropWhile pyWs).reverse.dropWhile pyWs).reverse := rfl
  _ = (((trimChars l)).reverse.dropWhile pyWs).reverse := by rw [hstep1]
  _ = ((trimChars l).reverse).reverse := by rw [hstep2]
  _ = trimChars l := List.reverse_reverse _

/-- The cons unfolding of `wordsAux`. -/
theorem wordsAux_cons (c : Char) (cs acc : List Char) :
    wordsAux (c :: cs) acc =
      if pyWs c then
        (if acc.isEmpty then wordsAux cs [] else acc.reverse :: wordsAux cs [])
      else wordsAux cs (c :: acc) := rfl

/-- Words produced by `wordsAux` are non-empty and whitespace-free
(given a whitespace-free accumulator). -/
theorem wordsAux_spec (l : List Char) : ∀ (acc : List Char),
    (∀ c ∈ acc, pyWs c = false) →
    ∀ w ∈ wordsAux l acc, w ≠ [] ∧ ∀ c ∈ w, pyWs c = false := by
  induction l with
  | nil =>
    intro acc hacc w hw
    unfold wordsAux at hw
    by_cases h : acc.isEmpty
    · rw [if_pos h] at hw
      simp at hw
    · rw [if_neg h] at hw
      simp only [List.mem_singleton] at hw
      subst hw
      refine ⟨by simp_all, ?_⟩
      intro c hc
      exact hacc c (List.mem_reverse.mp hc)
  | cons x xs ih =>
    intro acc hacc w hw
    unfold wordsAux at hw
    by_cases hx : pyWs x
    · rw [if_pos hx] at hw
      by_cases h : acc.isEmpty
      · rw [if_pos h] at hw
        exact ih [] (by simp) w hw
      · rw [if_neg h] at hw
        rcases List.mem_cons.mp hw with rfl | hw'
        · refine ⟨by simp_all, ?_⟩
          intro c hc
          exact hacc c (List.mem_reverse.mp hc)
        · exact ih [] (by simp) w hw'
    · rw [if_neg hx] at hw
      refine ih (x :: acc) ?_ w hw
      intro c hc
      rcases List.mem_cons.mp hc with rfl | hc'
      · exact Bool.eq_false_iff.mpr hx
      · exact hacc c hc'

/-- Every character of a word of `wordsAux l acc` comes from `acc` or
`l`. -/
theorem wordsAux_chars (l : List Char) : ∀ (acc : List Char),
    ∀ w ∈ wordsAux l acc, ∀ c ∈ w, c ∈ acc ∨ c ∈ l := by
  induction l with
  | nil =>
    intro acc w hw c hc
    unfold wordsAux at hw
    by_cases h : acc.isEmpty
    · rw [if_pos h] at hw
      simp at hw
    · rw [if_neg h] at hw
      simp only [List.mem_singleton] at hw
      subst hw
      exact Or.inl (List.mem_reverse.mp hc)
  | cons x xs ih =>
    intro acc w hw c hc
    unfold wordsAux at hw
    by_cases hx : pyWs x
    · rw [if_pos hx] at hw
      by_cases h : acc.isEmpty
      · rw [if_pos h] at hw
        rcases ih [] w hw c hc with h' | h'
        · simp at h'
        · exact Or.inr (List.mem_cons_of_mem _ h')
      · rw [if_neg h] at hw
        rcases List.mem_cons.mp hw with rfl | hw'
        · exact Or.inl (List.mem_reverse.mp hc)
        · rcases ih [] w hw' c hc with h' | h'
          · simp at h'
          · exact Or.inr (List.mem_cons_of_mem _ h')
    · rw [if_neg hx] at hw
      rcases ih (x :: acc) w hw c hc with h' | h'
      · rcases List.mem_cons.mp h' with rfl | h''
        · exact Or.inr (List.mem_cons_self _ _)
        · exact Or.inl h''
      · exact Or.inr (List.mem_cons_of_mem _ h')

/-- Splitting commutes with a character map that preserves
whitespace-ness. -/
theorem wordsAux_map (f : Char → Char) (hf : ∀ c, pyWs (f c) = pyWs c)
    (l : List Char) : ∀ (acc : List Char),
    wordsAux (l.map f) (acc.map f) = (wordsAux l acc).map (List.map f) := by
  induction l with
  | nil =>
    intro acc
    cases acc with
    | nil => rfl
    | cons a as => simp [wordsAux, List.map_reverse]
  | cons x xs ih =>
    intro acc
    simp only [List.map_cons, wordsAux, hf x]
    by_cases hx : pyWs x
    · simp only [hx, if_true]
      cases acc with
      | nil =>
        simpa using ih []
      | cons a as =>
        have h0 := ih []
        simp only [List.map_nil] at h0
        simp [h0, List.map_reverse]
    · simp only [hx, Bool.false_eq_true, if_false]
      rw [← List.map_cons f x acc]
      exact ih (x :: acc)

/-- Mapping a space-preserving character map over a join. -/
theorem joinWords_map (f : Char → Char) (hsp : f ' ' = ' ') :
    ∀ ws : List (List Char),
      (joinWords ws).map f = joinWords (ws.map (List.map f)) := by
  intro ws
  induction ws with
  | nil => rfl
  | cons w ws ih =>
    cases ws with
    | nil => rfl
    | cons w2 ws2 =>
      simp only [joinWords, List.map_cons, List.map_append]
      rw [hsp, ih, List.map_cons]

/-- Splitting a whitespace-free run appended to the rest. -/
theorem wordsAux_run (w : List Char) (hw : ∀ c ∈ w, pyWs c = false) :
    ∀ (l acc : List Char), wordsAux (w ++ l) acc = wordsAux l (w.reverse ++ acc) := by
  induction w with
  | nil =>
    intro l acc
    simp
  | cons x xs ih =>
    intro l acc
    have hx : pyWs x = false := hw x (List.mem_cons_self _ _)
    rw [List.cons_append, wordsAux_cons]
    rw [if_neg (by simp [hx])]
    rw [ih (fun c hc => hw c (List.mem_cons_of_mem _ hc)) l (x :: acc)]
    congr 1
    simp

/-- Splitting a space-join of non-empty whitespace-free words gives
the words back. -/
theorem wordsOf_joinWords (ws : List (List Char))
    (h : ∀ w ∈ ws, w ≠ [] ∧ ∀ c ∈ w, pyWs c = false) :
    wordsOf (joinWords ws) = ws := by
  induction ws with
  | nil => rfl
  | cons w ws ih =>
    obtain ⟨hne, hchars⟩ := h w (List.mem_cons_self _ _)
    cases ws with
    | nil =>
      show wordsAux (joinWords [w]) [] = [w]
      have hj : joinWords [w] = w ++ [] := by simp [joinWords]
      rw [hj, wordsAux_run w hchars [] []]
      unfold wordsAux
      rw [if_neg (by simp [hne])]
      simp
    | cons w2 ws2 =>
      show wordsAux (w ++ ' ' :: joinWords (w2 :: ws2)) [] = w :: w2 :: ws2
      rw [wordsAux_run w hchars _ []]
      unfold wordsAux
      rw [if_pos (by decide)]
      rw [if_neg (by simp [hne])]
      rw [List.append_nil, List.reverse_reverse]
      congr 1
      exact ih fun u hu => h u (List.mem_cons_of_mem _ hu)

/-- Strings with equal character data are equal. -/
theorem string_data_eq {x y : String} (h : x.data = y.data) : x = y := by
  cases x with
  | mk dx =>
  cases y with
  | mk dy =>
  have hd : dx = dy := h
  rw [hd]

/-- Splitting after upper-casing upper-cases each word. -/
theorem wordsOf_upperChars (l : List Char) :
    wordsOf (upperChars l) = (wordsOf l).map (List.map Char.toUpper) := by
  have h := wordsAux_map Char.toUpper pyWs_toUpper l []
  simpa [wordsOf, upperChars] using h

/-- The character data of `loaderNormalize`. -/
theorem loaderNormalize_data (s : String) :
    (loaderNormalize s).data = joinWords (wordsOf (upperChars s.data)) := rfl

/-- The output of `loaderNormalize` is fixed by upper-casing. -/
theorem upperChars_loaderNormalize (s : String) :
    upperChars (loaderNormalize s).data = (loaderNormalize s).data := by
  rw [loaderNormalize_data]
  show (joinWords (wordsOf (upperChars s.data))).map Char.toUpper = _
  rw [joinWords_map Char.toUpper (by decide)]
  congr 1
  have hfix : ∀ w ∈ wordsOf (upperChars s.data), List.map Char.toUpper w = w := by
    intro w hw
    have hchars := wordsAux_chars (upperChars s.data) [] w hw
    conv_rhs => rw [← List.map_id w]
    apply List.map_congr_left
    intro c hc
    rcases hchars c hc with h | h
    · simp at h
    · obtain ⟨a, -, rfl⟩ := List.mem_map.mp h
      exact toUpper_toUpper a
  rw [List.map_congr_left
    (fun w hw => (hfix w hw : List.map Char.toUpper w = id w)), List.map_id']

/-- `loaderNormalize` is idempotent. -/
theorem loaderNormalize_idem (s : String) :
    loaderNormalize (loaderNormalize s) = loaderNormalize s := by
  apply string_data_eq
  rw [loaderNormalize_data, upperChars_loaderNormalize, loaderNormalize_data]
  rw [wordsOf_joinWords (wordsOf (upperChars s.data))
    (fun w hw => wordsAux_spec (upperChars s.data) [] (by simp) w hw)]

/-- `pureNormalize` is idempotent. -/
theorem pureNormalize_idem (s : String) :
    pureNormalize (pureNormalize s) = pureNormalize s := by
  by_cases hs : s = ""
  · subst hs
    rfl
  · have hdef : pureNormalize s = ⟨trimChars (upperChars s.data)⟩ := by
      unfold pureNormalize
      rw [if_neg hs]
    rw [hdef]
    by_cases h0 : (⟨trimChars (upperChars s.data)⟩ : String) = ""
    · unfold pureNormalize
      rw [if_pos h0, h0]
    · unfold pureNormalize
      rw [if_neg h0]
      have e1 : trimChars (upperChars (trimChars (upperChars s.data))) =
          upperChars (trimChars (trimChars (upperChars s.data))) := trimChars_upperChars _
      have e2 : trimChars (trimChars (upperChars s.data)) = trimChars (upperChars s.data) :=
        trimChars_trimChars _
      have e3 : upperChars (trimChars (upperChars s.data)) =
          trimChars (upperChars (upperChars s.data)) := (trimChars_upperChars _).symm
      have e4 : upperChars (upperChars s.data) = upperChars s.data := upperChars_upperChars _
      exact congrArg String.mk
        (e1.trans ((congrArg upperChars e2).trans (e3.trans (congrArg trimChars e4))))

/-- C10 counterexample: the pure scorer's `_normalize` uppercases and
strips the ends but does not collapse internal whitespace, so the two
inputs "A  B" and "A B", which differ only in internal whitespace, do
not normalize to the same output under it. -/
theorem normalize_counterexample :
    pureNormalize "A  B" = "A  B" ∧ pureNormalize "A B" = "A B" ∧
    pureNormalize "A  B" ≠ pureNormalize "A B" :=
  ⟨by decide, by decide, by decide⟩

/-- C10 amended: both normalizers are deterministic and idempotent,
map the empty string to the empty string, are case-insensitive
(inputs with equal upper-casings normalize equally), and agree on
`"  Iran "` vs `"IRAN"`.  The loader's normalizer is additionally
insensitive to all whitespace differences (inputs with the same word
sequence normalize equally); the pure scorer's normalizer only trims
leading/trailing whitespace and preserves internal whitespace. -/
theorem normalize_amended (s x y : String) :
    loaderNormalize (loaderNormalize s) = loaderNormalize s ∧
    pureNormalize (pureNormalize s) = pureNormalize s ∧
    loaderNormalize "" = "" ∧
    pureNormalize "" = "" ∧
    (upperChars x.data = upperChars y.data → loaderNormalize x = loaderNormalize y) ∧
    (upperChars x.data = upperChars y.data → pureNormalize x = pureNormalize y) ∧
    (wordsOf x.data = wordsOf y.data → loaderNormalize x = loaderNormalize y) ∧
    loaderNormalize "  Iran " = loaderNormalize "IRAN" ∧
    pureNormalize "  Iran " = pureNormalize "IRAN" := by
  refine ⟨loaderNormalize_idem s, pureNormalize_idem s, rfl, rfl, ?_, ?_, ?_,
    by decide, by decide⟩
  · intro h
    apply string_data_eq
    rw [loaderNormalize_data, loaderNormalize_data]
    show joinWords (wordsOf (upperChars x.data)) = joinWords (wordsOf (upperChars y.data))
    rw [h]
  · intro h
    by_cases hx : x = ""
    · subst hx
      have hy : y.data = [] := by
        have h2 : upperChars y.data = [] := by
          simpa [upperChars] using h.symm
        simpa [upperChars] using h2
      have hy2 : y = "" := string_data_eq (by rw [hy])
      rw [hy2]
    · have hy : y ≠ "" := by
        intro hy
        subst hy
        apply hx
        have h2 : upperChars x.data = [] := by simpa [upperChars] using h
        have h3 : x.data = [] := by simpa [upperChars] using h2
        exact string_data_eq (by rw [h3])
      unfold pureNormalize
      rw [if_neg hx, if_neg hy]
      exact congrArg (fun l => (⟨trimChars l⟩ : String)) h
  · intro h
    apply string_data_eq
    rw [loaderNormalize_data, loaderNormalize_data, wordsOf_upperChars, wordsOf_upperChars, h]

/-- Witness for C10 at concrete strings. -/
theorem normalize_amended_witness :
    loaderNormalize (loaderNormalize "  a  b ") = loaderNormalize "  a  b " ∧
    (upperChars ("iran" : String).data = upperChars ("IRAN" : String).data ∧
      loaderNormalize "iran" = loaderNormalize "IRAN") ∧
    (wordsOf ("a  b" : String).data = wordsOf ("a b" : String).data ∧
      loaderNormalize "a  b" = loaderNormalize "a b") :=
  ⟨(normalize_amended "  a  b " "" "").1,
   ⟨by decide, (normalize_amended "" "iran" "IRAN").2.2.2.2.1 (by decide)⟩,
   ⟨by decide, (normalize_amended "" "a  b" "a b").2.2.2.2.2.2.1 (by decide)⟩⟩

/-- The match-kind priority never exceeds the EXACT priority. -/
theorem priorityOf_le_three (t : MatchType) : priorityOf t ≤ 3 := by
  cases t <;> simp [priorityOf]

/-- Only EXACT has priority 3. -/
theorem priorityOf_eq_three (t : MatchType) (h : priorityOf t = 3) : t = .exact := by
  cases t <;> simp_all [priorityOf]

/-- The descending-key comparator is transitive. -/
theorem sortLe_trans (a b c : SanctionMatch) (h1 : sortLe a b) (h2 : sortLe b c) :
    sortLe a c := by
  simp only [sortLe, decide_eq_true_eq] at h1 h2 ⊢
  rcases h1 with h1 | ⟨h1e, h1s⟩ <;> rcases h2 with h2 | ⟨h2e, h2s⟩
  · exact Or.inl (lt_trans h2 h1)
  · exact Or.inl (h2e ▸ h1)
  · exact Or.inl (h1e ▸ h2)
  · exact Or.inr ⟨h2e.trans h1e, h2s.trans h1s⟩

/-- The descending-key comparator is total. -/
theorem sortLe_total (a b : SanctionMatch) : sortLe a b || sortLe b a := by
  simp only [sortLe, Bool.or_eq_true, decide_eq_true_eq]
  rcases lt_trichotomy (priorityOf b.matchType) (priorityOf a.matchType) with h | h | h
  · exact Or.inl (Or.inl h)
  · rcases le_total b.similarity a.similarity with hs | hs
    · exact Or.inl (Or.inr ⟨h, hs⟩)
    · exact Or.inr (Or.inr ⟨h.symm, hs⟩)
  · exact Or.inr (Or.inl h)

/-- The matching loop yields the EXACT candidate with similarity 1 for
an entry whose normalized name equals the normalized input. -/
theorem matchCandidate_exact (normalized : String) (minSim : ℚ) (fullName : String)
    (e : SanctionEntry) (h1 : loaderNormalize e.name = normalized) (h2 : normalized ≠ "") :
    matchCandidate normalized minSim fullName e = some ⟨e, .exact, 1, fullName⟩ := by
  unfold matchCandidate
  rw [h1, if_neg h2, if_pos rfl]

/-- C7 (code bug): the claim states the intended behavior — the spec's
section 4.3 algorithm and the function's own docstring ("Returns
ranked matches") — but for every input whose normalized name is
non-empty the function as written raises `AttributeError` at
sanction_matching.py:70 (`data.sanctions` does not exist) and never
returns, so in particular it never returns the claimed candidate list
(first conjunct).  The remaining conjuncts certify that the function's
own matching loop and sort, run over the loaded entries as intended,
satisfy every part of the claim: the result contains the EXACT
candidate with similarity 1 for a normalized-equal entry; it is sorted
by match-kind priority (EXACT > FUZZY > PHONETIC) then similarity,
descending; every EXACT candidate precedes every non-EXACT one; and
candidates with equal (priority, similarity) keys appear in
reference-list order (the sorted list filtered to any key equals the
pre-sort candidate list, which is in reference-list order, filtered to
that key). -/
theorem matcher_exact_and_order (entries : List SanctionEntry) (fullName : String)
    (minSimilarity : ℚ) (e : SanctionEntry)
    (he : e ∈ entries)
    (hnorm : loaderNormalize fullName ≠ "")
    (heq : loaderNormalize e.name = loaderNormalize fullName) :
    (∀ ds : SanctionsDataset,
      matchSanctionsByNameRun ds fullName minSimilarity = .error attributeErrorSanctions) ∧
    ((⟨e, .exact, 1, fullName⟩ : SanctionMatch) ∈
      matchSanctionsByNameIntended entries fullName minSimilarity) ∧
    (matchSanctionsByNameIntended entries fullName minSimilarity).Pairwise
      (fun a b => sortLe a b = true) ∧
    (matchSanctionsByNameIntended entries fullName minSimilarity).Pairwise
      (fun a b => b.matchType = .exact → a.matchType = .exact) ∧
    (∀ k : Nat × ℚ,
      (matchSanctionsByNameIntended entries fullName minSimilarity).filter
        (fun m => sortKey m = k) =
      (matchCandidates entries (loaderNormalize fullName) minSimilarity fullName).filter
        (fun m => sortKey m = k)) := by
  have hRun : ∀ ds : SanctionsDataset,
      matchSanctionsByNameRun ds fullName minSimilarity = .error attributeErrorSanctions := by
    intro ds
    simp only [matchSanctionsByNameRun]
    rw [if_neg hnorm]
  have hM : matchSanctionsByNameIntended entries fullName minSimilarity
      = (matchCandidates entries (loaderNormalize fullName) minSimilarity fullName).mergeSort
          sortLe := by
    simp only [matchSanctionsByNameIntended]
    rw [if_neg hnorm]
  have hsorted : (matchSanctionsByNameIntended entries fullName minSimilarity).Pairwise
      (fun a b => sortLe a b = true) := by
    rw [hM]
    exact List.sorted_mergeSort (fun a b c => sortLe_trans a b c) sortLe_total _
  refine ⟨hRun, ?_, hsorted, ?_, ?_⟩
  · rw [hM, List.mem_mergeSort]
    unfold matchCandidates
    exact List.mem_filterMap.mpr
      ⟨e, he, matchCandidate_exact (loaderNormalize fullName) minSimilarity fullName e heq hnorm⟩
  · refine hsorted.imp ?_
    intro a b hab hb
    simp only [sortLe, decide_eq_true_eq] at hab
    have hpb : priorityOf b.matchType = 3 := by rw [hb]; rfl
    have hpa := priorityOf_le_three a.matchType
    rcases hab with h | ⟨h, -⟩
    · exact absurd h (by omega)
    · exact priorityOf_eq_three _ (by omega)
  · intro k
    rw [hM]
    have hperm := List.mergeSort_perm
      (matchCandidates entries (loaderNormalize fullName) minSimilarity fullName) sortLe
    have hsubC : List.Sublist
        ((matchCandidates entries (loaderNormalize fullName) minSimilarity
          fullName).filter (fun m => sortKey m = k))
        ((matchCandidates entries (loaderNormalize fullName) minSimilarity
          fullName).mergeSort sortLe) := by
      apply List.sublist_mergeSort (fun a b c => sortLe_trans a b c) sortLe_total
      · apply List.pairwise_of_forall_mem_list
        intro a ha b hb
        have hka : sortKey a = k := by simpa using (List.mem_filter.mp ha).2
        have hkb : sortKey b = k := by simpa using (List.mem_filter.mp hb).2
        have hk : sortKey b = sortKey a := hkb.trans hka.symm
        simp only [sortLe, decide_eq_true_eq]
        exact Or.inr ⟨congrArg Prod.fst hk, le_of_eq (congrArg Prod.snd hk)⟩
      · exact List.filter_sublist _
    have hsub2 : List.Sublist
        ((matchCandidates entries (loaderNormalize fullName) minSimilarity
          fullName).filter (fun m => sortKey m = k))
        (((matchCandidates entries (loaderNormalize fullName) minSimilarity
          fullName).mergeSort sortLe).filter (fun m => sortKey m = k)) := by
      have h2 := hsubC.filter (fun m => decide (sortKey m = k))
      simpa using h2
    have hlen : ((matchCandidates entries (loaderNormalize fullName) minSimilarity
          fullName).filter (fun m => sortKey m = k)).length =
        (((matchCandidates entries (loaderNormalize fullName) minSimilarity
          fullName).mergeSort sortLe).filter (fun m => sortKey m = k)).length :=
      ((hperm.filter (fun m => decide (sortKey m = k))).length_eq).symm
    exact (hsub2.eq_of_length hlen).symm

/-- Witness for C7 at a concrete one-entry reference list. -/
theorem matcher_exact_and_order_witness :
    (matchSanctionsByNameRun {} "john" (8/10) = .error attributeErrorSanctions) ∧
    ((⟨⟨"UN", "John", "r"⟩, .exact, 1, "john"⟩ : SanctionMatch) ∈
      matchSanctionsByNameIntended [⟨"UN", "John", "r"⟩] "john" (8/10)) ∧
    (matchSanctionsByNameIntended [⟨"UN", "John", "r"⟩] "john" (8/10)).Pairwise
      (fun a b => sortLe a b = true) :=
  ⟨(matcher_exact_and_order [⟨"UN", "John", "r"⟩] "john" (8/10) ⟨"UN", "John", "r"⟩
      (by decide) (by decide) (by decide)).1 {},
   (matcher_exact_and_order [⟨"UN", "John", "r"⟩] "john" (8/10) ⟨"UN", "John", "r"⟩
      (by decide) (by decide) (by decide)).2.1,
   (matcher_exact_and_order [⟨"UN", "John", "r"⟩] "john" (8/10) ⟨"UN", "John", "r"⟩
      (by decide) (by decide) (by decide)).2.2.1⟩

end ComplianceAI
